import Mathlib

set_option maxRecDepth 100000

/-!
Verification of the `lob` CLI (expression-to-program compile-cache-execute
pipeline) against its natural-language specification.

The Rust sources are shallowly embedded: pure functions become Lean
functions over `String` / `List Char`, filesystem state becomes an explicit
finite-map model threaded through the operations, and the external compiler
subprocess becomes an explicit outcome record passed in as data.
-/

namespace Lob

/-! ## Generic list facts used to reason about substring occurrences -/

/-- A list that is a prefix of an append either sits inside the left part or
extends it into the right part. -/
theorem pfx_append_cases {α : Type} (w xs ys : List α) :
    w <+: xs ++ ys → w <+: xs ∨ ∃ b, w = xs ++ b ∧ b <+: ys := by
  induction xs generalizing w with
  | nil =>
    intro h
    right
    exact ⟨w, by simp, by simpa using h⟩
  | cons x xs ih =>
    intro h
    cases w with
    | nil => left; exact ⟨x :: xs, rfl⟩
    | cons c w' =>
      rw [List.cons_append] at h
      rcases List.cons_prefix_cons.mp h with ⟨rfl, h'⟩
      rcases ih w' h' with hp | ⟨b, rfl, hb⟩
      · left; exact List.cons_prefix_cons.mpr ⟨rfl, hp⟩
      · right; exact ⟨b, by simp, hb⟩

/-- Lift a prefix into a factor occurrence. -/
theorem pfx_ifx {α : Type} {w l : List α} (h : w <+: l) : w <:+: l := by
  obtain ⟨t, ht⟩ := h
  exact ⟨[], t, by simpa using ht⟩

/-- Lift a suffix into a factor occurrence. -/
theorem sfx_ifx {α : Type} {w l : List α} (h : w <:+ l) : w <:+: l := by
  obtain ⟨s, hs⟩ := h
  exact ⟨s, [], by simpa using hs⟩

/-- A factor of an append is a factor of one side, or straddles the seam:
a nonempty suffix of the left side followed by a nonempty prefix of the
right side. -/
theorem ifx_append_cases {α : Type} (w xs ys : List α) :
    w <:+: xs ++ ys →
      w <:+: xs ∨ w <:+: ys ∨
        ∃ a b, a ++ b = w ∧ a ≠ [] ∧ b ≠ [] ∧ a <:+ xs ∧ b <+: ys := by
  induction xs with
  | nil =>
    intro h
    right; left
    simpa using h
  | cons x xs ih =>
    intro h
    rw [List.cons_append] at h
    rcases List.infix_cons_iff.mp h with hpre | hinf
    · rcases pfx_append_cases w (x :: xs) ys (by simpa using hpre) with hp | ⟨b, hw, hb⟩
      · left; exact pfx_ifx hp
      · subst hw
        by_cases hb0 : b = []
        · subst hb0
          left
          simp only [List.append_nil]
          exact List.infix_refl (x :: xs)
        · right; right
          exact ⟨x :: xs, b, by simp, by simp, hb0, List.suffix_refl _, hb⟩
    · rcases ih hinf with h1 | h2 | ⟨a, b, hab, ha, hb2, hax, hby⟩
      · left
        obtain ⟨s, t, hst⟩ := h1
        exact ⟨x :: s, t, by simp [← hst]⟩
      · right; left; exact h2
      · right; right
        obtain ⟨s, hs⟩ := hax
        exact ⟨a, b, hab, ha, hb2, ⟨x :: s, by simp [← hs]⟩, hby⟩

/-- The element reported by `getLast?` is a member. -/
theorem mem_of_getLastQ {α : Type} {l : List α} {a : α} (h : l.getLast? = some a) :
    a ∈ l := by
  rcases List.mem_getLast?_eq_getLast (show a ∈ l.getLast? from h) with ⟨hne, rfl⟩
  exact List.getLast_mem hne

/-- The element reported by `head?` is a member. -/
theorem mem_of_headQ {α : Type} {l : List α} {a : α} (h : l.head? = some a) :
    a ∈ l := by
  cases l with
  | nil => simp at h
  | cons x xs =>
    simp only [List.head?_cons, Option.some.injEq] at h
    subst h
    exact List.mem_cons_self _ _

/-- A word whose letters avoid the last element of `xs` cannot straddle out
of `xs`: if it is a factor of neither side it is not a factor of the append. -/
theorem no_ifx_concat_left {α : Type} {w xs ys : List α} {c : α}
    (h1 : ¬ w <:+: xs) (h2 : ¬ w <:+: ys)
    (hl : xs.getLast? = some c) (hc : c ∉ w) : ¬ w <:+: xs ++ ys := by
  intro h
  rcases ifx_append_cases w xs ys h with hx | hy | ⟨a, b, hab, ha, hb, hax, hby⟩
  · exact h1 hx
  · exact h2 hy
  · obtain ⟨s, hs⟩ := hax
    have hlast : a.getLast? = some c := by
      rw [← hl, ← hs]
      exact (List.getLast?_append_of_ne_nil s ha).symm
    have : c ∈ a := mem_of_getLastQ hlast
    exact hc (hab ▸ List.mem_append_left b this)

/-- Mirror image of `no_ifx_concat_left` using the head of the right part. -/
theorem no_ifx_concat_right {α : Type} {w xs ys : List α} {c : α}
    (h1 : ¬ w <:+: xs) (h2 : ¬ w <:+: ys)
    (hh : ys.head? = some c) (hc : c ∉ w) : ¬ w <:+: xs ++ ys := by
  intro h
  rcases ifx_append_cases w xs ys h with hx | hy | ⟨a, b, hab, ha, hb, hax, hby⟩
  · exact h1 hx
  · exact h2 hy
  · obtain ⟨t, ht⟩ := hby
    have hhead : b.head? = some c := by
      rw [← hh, ← ht]
      exact (List.head?_append_of_ne_nil b hb).symm
    have : c ∈ b := mem_of_headQ hhead
    exact hc (hab ▸ List.mem_append_right a this)

/-- Factor occurrences extend to the right. -/
theorem ifx_append_left {α : Type} {w xs : List α} (ys : List α)
    (h : w <:+: xs) : w <:+: xs ++ ys := by
  obtain ⟨s, t, hst⟩ := h
  exact ⟨s, t ++ ys, by rw [← hst]; simp⟩

/-- Factor occurrences extend to the left. -/
theorem ifx_append_right {α : Type} {w ys : List α} (xs : List α)
    (h : w <:+: ys) : w <:+: xs ++ ys := by
  obtain ⟨s, t, hst⟩ := h
  exact ⟨xs ++ s, t, by rw [← hst]; simp⟩

/-! ## Output formats (src/crates/lob-cli/src/output.rs)

The `OutputFormat` enum as the rest of the crate requires it.  Note:
`output.rs` itself declares only the four variants `Debug, Json, JsonLines,
Csv`, while `codegen.rs` matches on `OutputFormat::Table`, `main.rs` accepts
the selector name `"table"`, and `tests/cli_test.rs::output_table` exercises
it; the missing fifth variant in `output.rs` is a defect of that file.  The
embedding declares all five variants so that `codegen.rs` can be embedded,
and embeds `from_str` exactly as written in `output.rs` (no `"table"` arm). -/
inductive OutputFormat where
  | debug
  | json
  | jsonLines
  | csv
  | table
deriving DecidableEq, Repr

/-- Embedding of `OutputFormat::from_str` (output.rs lines 20-28): the match
has arms for "debug", "json", "jsonl" | "jsonlines" and "csv" only. -/
def OutputFormat.from_str (s : String) : Option OutputFormat :=
  if s = "debug" then some .debug
  else if s = "json" then some .json
  else if s = "jsonl" then some .jsonLines
  else if s = "jsonlines" then some .jsonLines
  else if s = "csv" then some .csv
  else none

/-- Embedding of `OutputFormat::default` (output.rs lines 31-37). -/
def OutputFormat.defaultFor (is_terminal : Bool) : OutputFormat :=
  if is_terminal then .debug else .jsonLines

/-! ## Input formats and sources (src/crates/lob-cli/src/input.rs) -/

inductive InputFormat where
  | lines
  | csv
  | tsv
  | jsonLines
deriving DecidableEq, Repr

/-- Embedding of `InputSource` (input.rs lines 34-39); file paths are kept
as opaque strings. -/
structure InputSource where
  files : List String
  format : InputFormat
deriving DecidableEq, Repr

/-- Embedding of `InputSource::is_stdin` (input.rs lines 48-50). -/
def InputSource.is_stdin (s : InputSource) : Bool :=
  s.files.isEmpty

/-! ## Code generation (src/crates/lob-cli/src/codegen.rs)

`CodeGenerator::generate` assembles the program text by successive
`push_str` calls; the embedding mirrors that as a concatenation of the same
string literals, in the same order.  Rust brace characters appear as `\x7b`
and `\x7d` escapes. -/

structure CodeGenerator where
  expression : String
  input_source : InputSource
  output_format : OutputFormat

/-- Executable substring test on character lists: `containsSeq pat l` is the
Rust `str::contains(pat)` of a pattern string. -/
def containsSeq (pat : List Char) : List Char → Bool
  | [] => pat.isEmpty
  | x :: xs => pat.isPrefixOf (x :: xs) || containsSeq pat xs

/-- `containsSeq` decides the factor (substring) relation. -/
theorem containsSeq_iff (pat l : List Char) : containsSeq pat l = true ↔ pat <:+: l := by
  induction l with
  | nil =>
    simp only [containsSeq, List.isEmpty_iff]
    constructor
    · rintro rfl; exact List.infix_refl []
    · intro h; exact List.eq_nil_of_infix_nil h
  | cons x xs ih =>
    simp only [containsSeq, Bool.or_eq_true, List.isPrefixOf_iff_prefix, ih,
      List.infix_cons_iff]

/-- The fixed token list of `CodeGenerator::has_terminal_operation`
(codegen.rs lines 195-210), verbatim. -/
def terminalTokens : List String :=
  [".collect(", ".count()", ".sum(", ".sum::", ".min()", ".max()",
   ".reduce(", ".fold(", ".fold_left(", ".first()", ".last()",
   ".to_list()", ".any(", ".all("]

/-- Embedding of `CodeGenerator::has_terminal_operation` (codegen.rs lines
194-213): `terminals.iter().any(|t| self.expression.contains(t))`, a raw
substring test. -/
def hasTerminalOperation (expr : String) : Bool :=
  terminalTokens.any (fun t => containsSeq t.data expr.data)

/-- The file-collecting statement emitted before every `*_from_files`
acquisition call (codegen.rs lines 78, 86, 94, 102 — the same literal in
each arm). -/
def filesDecl : String :=
  "    let files: Vec<_> = std::env::args().skip(1).map(|p| std::path::PathBuf::from(p)).collect();\n"

/-- Embedding of `CodeGenerator::generate_input` (codegen.rs lines 72-107):
the text pushed onto `code`, selected by input format and `is_stdin`. -/
def generateInput (src : InputSource) : String :=
  match src.format with
  | .lines =>
    if src.is_stdin then "    let stdin_data = input();\n"
    else filesDecl ++ "    let stdin_data = input_from_files(&files);\n"
  | .csv =>
    if src.is_stdin then "    let stdin_data = input_csv();\n"
    else filesDecl ++ "    let stdin_data = input_csv_from_files(&files);\n"
  | .tsv =>
    if src.is_stdin then "    let stdin_data = input_tsv();\n"
    else filesDecl ++ "    let stdin_data = input_tsv_from_files(&files);\n"
  | .jsonLines =>
    if src.is_stdin then "    let stdin_data = input_json();\n"
    else filesDecl ++ "    let stdin_data = input_json_from_files(&files);\n"

/-- Embedding of `CodeGenerator::generate_output` (codegen.rs lines
110-191): the text pushed for each output format, split on
`is_iter = !has_terminal_operation()`. -/
def generateOutput (ofmt : OutputFormat) (isIter : Bool) : String :=
  match ofmt with
  | .debug =>
    if isIter then
      "    for item in result \x7b\n" ++
      "        println!(\"\x7b:?\x7d\", item);\n" ++
      "    \x7d\n"
    else
      "    println!(\"\x7b:?\x7d\", result);\n"
  | .json =>
    if isIter then
      "    let items: Vec<_> = result.collect();\n" ++
      "    println!(\"\x7b\x7d\", serde_json::to_string_pretty(&items).unwrap());\n"
    else
      "    println!(\"\x7b\x7d\", serde_json::to_string(&result).unwrap());\n"
  | .jsonLines =>
    if isIter then
      "    for item in result \x7b\n" ++
      "        println!(\"\x7b\x7d\", serde_json::to_string(&item).unwrap());\n" ++
      "    \x7d\n"
    else
      "    println!(\"\x7b\x7d\", serde_json::to_string(&result).unwrap());\n"
  | .csv =>
    if isIter then
      "    let items: Vec<_> = result.collect();\n" ++
      "    output_csv(&items);\n"
    else
      "    output_csv(&[result]);\n"
  | .table =>
    if isIter then
      "    let items: Vec<_> = result.collect();\n" ++
      "    if !items.is_empty() \x7b\n" ++
      "        let mut builder = Builder::default();\n" ++
      "        // Extract headers from first item\n" ++
      "        let mut headers: Vec<_> = items[0].keys().collect();\n" ++
      "        headers.sort();\n" ++
      "        builder.push_record(headers.iter().map(|k| k.as_str()));\n" ++
      "        // Add data rows\n" ++
      "        for item in &items \x7b\n" ++
      "            let row: Vec<_> = headers.iter().map(|k| item.get(*k).map(|v| v.as_str()).unwrap_or(\"\")).collect();\n" ++
      "            builder.push_record(row);\n" ++
      "        \x7d\n" ++
      "        let table = builder.build().with(Style::rounded()).to_string();\n" ++
      "        println!(\"\x7b\x7d\", table);\n" ++
      "    \x7d\n"
    else
      "    let mut builder = Builder::default();\n" ++
      "    let mut headers: Vec<_> = result.keys().collect();\n" ++
      "    headers.sort();\n" ++
      "    builder.push_record(headers.iter().map(|k| k.as_str()));\n" ++
      "    let row: Vec<_> = headers.iter().map(|k| result.get(*k).map(|v| v.as_str()).unwrap_or(\"\")).collect();\n" ++
      "    builder.push_record(row);\n" ++
      "    let table = builder.build().with(Style::rounded()).to_string();\n" ++
      "    println!(\"\x7b\x7d\", table);\n"

/-- The import/prelude boilerplate plus `fn main() {` opener emitted by
`CodeGenerator::generate` before any input handling (codegen.rs lines
26-47). -/
def headerFor (ofmt : OutputFormat) : String :=
  "use lob_prelude::*;\n" ++
  "use std::collections::HashMap;\n" ++
  (if ofmt = .json ∨ ofmt = .jsonLines then "use lob_prelude::serde_json;\n" else "") ++
  (if ofmt = .table then
    "use lob_prelude::tabled::builder::Builder;\n" ++
    "use lob_prelude::tabled::settings::Style;\n"
   else "") ++
  "\n" ++
  "fn main() \x7b\n"

/-- Rust `str::trim` on the character list: whitespace stripped from both
ends. -/
def trimChars (l : List Char) : List Char :=
  ((l.dropWhile Char.isWhitespace).reverse.dropWhile Char.isWhitespace).reverse

/-- Embedding of the `uses_stdin` test of `CodeGenerator::generate`
(codegen.rs line 50): `self.expression.trim().starts_with('_')`. -/
def usesStdin (expr : String) : Bool :=
  (trimChars expr.data).head? == some '_'

/-- Replace the first occurrence of the character `c` by `rep`, leaving
later occurrences untouched — the behavior of Rust
`str::replacen(char, rep, 1)`. -/
def replaceFirstCharList (c : Char) (rep : List Char) : List Char → List Char
  | [] => []
  | x :: xs => if x = c then rep ++ xs else x :: replaceFirstCharList c rep xs

/-- Embedding of `self.expression.replacen('_', "stdin_data", 1)`
(codegen.rs line 55). -/
def replacenUnderscore (s : String) : String :=
  ⟨replaceFirstCharList '_' "stdin_data".data s.data⟩

/-- Everything `CodeGenerator::generate` pushes before the user expression:
header, optional input acquisition, and the `let result = ` opener
(codegen.rs lines 26-61). -/
def genLead (src : InputSource) (ofmt : OutputFormat) (u : Bool) : String :=
  headerFor ofmt ++ (if u then generateInput src else "") ++ "    let result = "

/-- Everything `CodeGenerator::generate` pushes after the user expression:
the `;` terminator, the output stage and the closing brace (codegen.rs
lines 61-66). -/
def genClose (ofmt : OutputFormat) (isIter : Bool) : String :=
  ";\n" ++ generateOutput ofmt isIter ++ "\x7d\n"

/-- Embedding of `CodeGenerator::generate` (codegen.rs lines 25-69).  The
Rust method returns `Result<String>` but is total and always `Ok`; the
embedding returns the string. -/
def CodeGenerator.generate (g : CodeGenerator) : String :=
  let u := usesStdin g.expression
  let exprFinal := if u then replacenUnderscore g.expression else g.expression
  genLead g.input_source g.output_format u ++ exprFinal ++
    genClose g.output_format (!hasTerminalOperation g.expression)

/-! ## Claim C5 — output-format selection -/

/-- C5: the claim states that the accepted selector names cover the five
formats including "table".  In `output.rs` the enum lacks the `Table`
variant and `from_str` has no "table" arm, so `from_str "table"` is `none`
even though `main.rs` advertises the name, `codegen.rs` matches on the
variant, and the crate's own test `output_table` requires it: the code
contradicts its own callers and tests.  This theorem evaluates the embedded
`from_str` at the failing input "table" and at the four accepted names, and
the terminal-sensitive default. -/
theorem C5_from_str_table_missing :
    OutputFormat.from_str "table" = none ∧
    OutputFormat.from_str "debug" = some .debug ∧
    OutputFormat.from_str "json" = some .json ∧
    OutputFormat.from_str "jsonl" = some .jsonLines ∧
    OutputFormat.from_str "jsonlines" = some .jsonLines ∧
    OutputFormat.from_str "csv" = some .csv ∧
    OutputFormat.defaultFor true = .debug ∧
    OutputFormat.defaultFor false = .jsonLines :=
  ⟨rfl, rfl, rfl, rfl, rfl, rfl, rfl, rfl⟩

/-! ## Claim C7 — lexical terminal-operation detection -/

/-- The twelve terminal-operation names listed by the specification.
Modelled from the spec for comparison with the code's token list: the spec
describes the classification as matching these bare names. -/
def specTerminalNames : List String :=
  ["count", "sum", "reduce", "fold", "first", "last", "min", "max",
   "any", "all", "collect", "to_list"]

/-- C7 counterexample: the claim says every expression whose raw text
contains one of the names (here "count") is classified terminal.  The code
matches the call-form token ".count()" (codegen.rs line 197), not the bare
name, so the expression `_.map(|x| count)` contains "count" yet is
classified lazy. -/
theorem C7_counterexample :
    containsSeq "count".data "_.map(|x| count)".data = true ∧
    hasTerminalOperation "_.map(|x| count)" = false := by
  constructor
  · decide
  · decide

/-- Every token of the code's list embeds one of the spec's names. -/
theorem name_of_token :
    ∀ t ∈ terminalTokens, ∃ n ∈ specTerminalNames, n.data <:+: t.data := by
  decide

/-- C7 (amended): the classification is a purely lexical substring match,
but against the fixed call-form tokens `.collect(`, `.count()`, `.sum(`,
`.sum::`, `.min()`, `.max()`, `.reduce(`, `.fold(`, `.fold_left(`,
`.first()`, `.last()`, `.to_list()`, `.any(`, `.all(` — not against the
bare operation names.  An expression is classified terminal exactly when
its raw text contains one of these tokens; consequently every
terminal-classified expression does contain one of the twelve names, but
containing a bare name alone does not make an expression terminal. -/
theorem C7_terminal_detection (expr : String) :
    (hasTerminalOperation expr = true ↔
      ∃ t ∈ terminalTokens, t.data <:+: expr.data) ∧
    (hasTerminalOperation expr = true →
      ∃ n ∈ specTerminalNames, n.data <:+: expr.data) := by
  have hiff : hasTerminalOperation expr = true ↔
      ∃ t ∈ terminalTokens, t.data <:+: expr.data := by
    simp only [hasTerminalOperation, List.any_eq_true, containsSeq_iff]
  refine ⟨hiff, fun h => ?_⟩
  obtain ⟨t, ht, hc⟩ := hiff.mp h
  obtain ⟨n, hn, hnt⟩ := name_of_token t ht
  exact ⟨n, hn, hnt.trans hc⟩

/-- Witness for C7 at the concrete terminal expression `_.take(2).count()`. -/
theorem C7_terminal_detection_witness :
    hasTerminalOperation "_.take(2).count()" = true ∧
    ∃ n ∈ specTerminalNames, n.data <:+: "_.take(2).count()".data :=
  ⟨by decide, (C7_terminal_detection "_.take(2).count()").2 (by decide)⟩

/-! ## Helper lemmas about first-occurrence replacement -/

/-- Replacing a character that does not occur is the identity. -/
theorem replaceFirst_no_occurrence (c : Char) (rep : List Char) (l : List Char)
    (h : c ∉ l) : replaceFirstCharList c rep l = l := by
  induction l with
  | nil => rfl
  | cons x xs ih =>
    have hx : x ≠ c := fun he => h (he ▸ List.mem_cons_self x xs)
    simp only [replaceFirstCharList, if_neg hx]
    rw [ih (fun hm => h (List.mem_cons_of_mem x hm))]

/-- `replacen(c, rep, 1)` on a list split at the first occurrence of `c`. -/
theorem replaceFirst_split (c : Char) (rep : List Char) (pre post : List Char)
    (h : c ∉ pre) :
    replaceFirstCharList c rep (pre ++ c :: post) = pre ++ rep ++ post := by
  induction pre with
  | nil => simp [replaceFirstCharList]
  | cons x xs ih =>
    have hx : x ≠ c := fun he => h (he ▸ List.mem_cons_self x xs)
    have ih' := ih (fun hm => h (List.mem_cons_of_mem x hm))
    simp only [List.cons_append, replaceFirstCharList, if_neg hx, List.append_eq]
    simp [ih']

/-- Any list containing `c` splits at the first occurrence of `c`. -/
theorem first_occ_split {c : Char} {l : List Char} (h : c ∈ l) :
    ∃ pre post, l = pre ++ c :: post ∧ c ∉ pre := by
  induction l with
  | nil => cases h
  | cons x xs ih =>
    by_cases hx : x = c
    · exact ⟨[], xs, by rw [hx]; rfl, by simp⟩
    · have hm : c ∈ xs := by
        rcases List.mem_cons.mp h with he | hm
        · exact absurd he.symm hx
        · exact hm
      obtain ⟨pre, post, hsplit, hpre⟩ := ih hm
      exact ⟨x :: pre, post, by rw [hsplit]; rfl,
        by simp only [List.mem_cons, not_or]; exact ⟨fun he => hx he.symm, hpre⟩⟩

/-- Substituting `stdin_data` for the first underscore cannot create an
occurrence of the word `input`: the inserted text has no letter of `input`
at its ends and contains no occurrence itself. -/
theorem no_input_replacen (s : String) (h : ¬ ("input".data <:+: s.data)) :
    ¬ ("input".data <:+: (replacenUnderscore s).data) := by
  by_cases hc : '_' ∈ s.data
  · obtain ⟨pre, post, hsplit, hpre⟩ := first_occ_split hc
    have hdata : (replacenUnderscore s).data = pre ++ "stdin_data".data ++ post := by
      show replaceFirstCharList '_' "stdin_data".data s.data = _
      rw [hsplit, replaceFirst_split _ _ _ _ hpre]
    rw [hdata]
    have hpre' : ¬ ("input".data <:+: pre) := fun hx => h (hsplit ▸ ifx_append_left _ hx)
    have hpost : ¬ ("input".data <:+: post) := by
      intro hx
      apply h
      rw [hsplit]
      refine ifx_append_right _ ?_
      obtain ⟨a, b, hab⟩ := hx
      exact ⟨'_' :: a, b, by simp [← hab]⟩
    have inner : ¬ ("input".data <:+: "stdin_data".data ++ post) :=
      no_ifx_concat_left (c := 'a') (by decide) hpost (by decide) (by decide)
    have houter : ¬ ("input".data <:+: pre ++ ("stdin_data".data ++ post)) := by
      refine no_ifx_concat_right (c := 's') hpre' inner ?_ (by decide)
      rw [List.head?_append_of_ne_nil _ (by decide)]
      rfl
    intro hx
    exact houter (by rw [← List.append_assoc]; exact hx)
  · have heq : replaceFirstCharList '_' "stdin_data".data s.data = s.data :=
      replaceFirst_no_occurrence _ _ _ hc
    show ¬ ("input".data <:+: replaceFirstCharList '_' "stdin_data".data s.data)
    rw [heq]
    exact h

/-! ## Structural facts about the generated skeleton -/

/-- The header block emitted by `generate` never mentions `input`. -/
theorem headerFor_no_input (ofmt : OutputFormat) :
    ¬ ("input".data <:+: (headerFor ofmt).data) := by
  cases ofmt <;> decide

/-- The header block always ends with a newline. -/
theorem headerFor_last (ofmt : OutputFormat) :
    (headerFor ofmt).data.getLast? = some '\n' := by
  cases ofmt <;> decide

/-- The closing part always starts with the statement terminator `;`. -/
theorem genClose_head (ofmt : OutputFormat) (b : Bool) :
    (genClose ofmt b).data.head? = some ';' := by
  cases ofmt <;> cases b <;> decide

/-- The closing part never mentions `input` (the output vocabulary is
`output_csv`, `println!`, table building — none contains the word). -/
theorem genClose_no_input (ofmt : OutputFormat) (b : Bool) :
    ¬ ("input".data <:+: (genClose ofmt b).data) := by
  cases ofmt <;> cases b <;> decide

/-- The lead-in part always ends with the space of `let result = `. -/
theorem genLead_last (src : InputSource) (ofmt : OutputFormat) (u : Bool) :
    (genLead src ofmt u).data.getLast? = some ' ' := by
  show ((headerFor ofmt ++ (if u then generateInput src else "")) ++ "    let result = ").data.getLast? = some ' '
  rw [String.data_append, List.getLast?_append_of_ne_nil _ (by decide)]
  rfl

/-! ## Claim C8 — input-format acquisition matrix -/

/-- The eight input-acquisition call forms of the generated programs
(codegen.rs lines 76-103), indexed by input format and stdin-vs-files. -/
def acquisitionForm (fmt : InputFormat) (stdinSrc : Bool) : String :=
  match fmt, stdinSrc with
  | .lines, true => "input()"
  | .lines, false => "input_from_files("
  | .csv, true => "input_csv()"
  | .csv, false => "input_csv_from_files("
  | .tsv, true => "input_tsv()"
  | .tsv, false => "input_tsv_from_files("
  | .jsonLines, true => "input_json()"
  | .jsonLines, false => "input_json_from_files("

/-- All eight acquisition call forms. -/
def acquisitionForms : List String :=
  ["input()", "input_from_files(", "input_csv()", "input_csv_from_files(",
   "input_tsv()", "input_tsv_from_files(", "input_json()", "input_json_from_files("]

/-- Bundled side conditions under which a pattern `p` cannot occur in a
generated program outside the expression: `p` contains the word `input`,
does not occur in the acquisition statement plus binding opener, and avoids
the boundary characters `;`, space and newline. -/
def sideOK (p : String) (acqLead : String) : Bool :=
  decide ("input".data <:+: p.data) &&
  !(decide (p.data <:+: acqLead.data)) &&
  !(decide (';' ∈ p.data)) && !(decide (' ' ∈ p.data)) && !(decide ('\n' ∈ p.data))

/-- A pattern satisfying `sideOK` for the acquisition statement of the
generator's input source occurs nowhere in the generated program, provided
the user expression does not itself mention `input`. -/
theorem of_sideOK (p : String) (g : CodeGenerator)
    (hu : usesStdin g.expression = true)
    (hexpr : ¬ ("input".data <:+: g.expression.data))
    (hside : sideOK p (generateInput g.input_source ++ "    let result = ") = true) :
    ¬ (p.data <:+: g.generate.data) := by
  simp only [sideOK, Bool.and_eq_true, Bool.not_eq_true', decide_eq_true_eq,
    decide_eq_false_iff_not] at hside
  obtain ⟨⟨⟨⟨hip, hk1'⟩, hsemi⟩, hsp⟩, hnl⟩ := hside
  have hE : ¬ (p.data <:+: (replacenUnderscore g.expression).data) :=
    fun hx => no_input_replacen _ hexpr (hip.trans hx)
  have hK2 : ¬ (p.data <:+: (genClose g.output_format (!hasTerminalOperation g.expression)).data) :=
    fun hx => genClose_no_input _ _ (hip.trans hx)
  have hEK2 : ¬ (p.data <:+:
      (replacenUnderscore g.expression).data ++
        (genClose g.output_format (!hasTerminalOperation g.expression)).data) :=
    no_ifx_concat_right hE hK2 (genClose_head _ _) hsemi
  have hK1 : ¬ (p.data <:+: (genLead g.input_source g.output_format true).data) := by
    show ¬ (p.data <:+:
      ((headerFor g.output_format ++ (if true then generateInput g.input_source else "")) ++
        "    let result = ").data)
    rw [String.data_append, String.data_append, List.append_assoc]
    have hhd : ¬ (p.data <:+: (headerFor g.output_format).data) :=
      fun hx => headerFor_no_input _ (hip.trans hx)
    have hrest : ¬ (p.data <:+:
        (if true then generateInput g.input_source else "").data ++ "    let result = ".data) := by
      rw [if_pos rfl, ← String.data_append]
      exact hk1'
    exact no_ifx_concat_left hhd hrest (headerFor_last _) hnl
  intro hx
  have hgen : g.generate.data =
      (genLead g.input_source g.output_format true).data ++
        ((replacenUnderscore g.expression).data ++
          (genClose g.output_format (!hasTerminalOperation g.expression)).data) := by
    show ((genLead g.input_source g.output_format (usesStdin g.expression) ++
      (if usesStdin g.expression then replacenUnderscore g.expression else g.expression)) ++
      genClose g.output_format (!hasTerminalOperation g.expression)).data = _
    rw [hu, if_pos rfl, String.data_append, String.data_append, List.append_assoc]
  rw [hgen] at hx
  exact no_ifx_concat_left hK1 hEK2 (genLead_last _ _ _) hsp hx

/-- Any factor of the acquisition statement is a factor of the whole
generated program, when the expression consumes stdin. -/
theorem acq_in_generate {w : List Char} (g : CodeGenerator)
    (hu : usesStdin g.expression = true)
    (h : w <:+: (generateInput g.input_source).data) : w <:+: g.generate.data := by
  have hlead : w <:+: (genLead g.input_source g.output_format true).data := by
    show w <:+:
      ((headerFor g.output_format ++ (if true then generateInput g.input_source else "")) ++
        "    let result = ").data
    rw [String.data_append, String.data_append, if_pos rfl]
    exact ifx_append_left _ (ifx_append_right _ h)
  have hgen : g.generate.data =
      ((genLead g.input_source g.output_format true).data ++
        (replacenUnderscore g.expression).data) ++
        (genClose g.output_format (!hasTerminalOperation g.expression)).data := by
    show ((genLead g.input_source g.output_format (usesStdin g.expression) ++
      (if usesStdin g.expression then replacenUnderscore g.expression else g.expression)) ++
      genClose g.output_format (!hasTerminalOperation g.expression)).data = _
    rw [hu, if_pos rfl, String.data_append, String.data_append]
  rw [hgen]
  exact ifx_append_left _ (ifx_append_left _ hlead)

/-- Each acquisition statement contains its own call form. -/
theorem acq_in_generateInput (fmt : InputFormat) (b : Bool) :
    (acquisitionForm fmt b).data <:+:
      (generateInput ⟨if b then [] else [""], fmt⟩).data := by
  cases fmt <;> cases b <;> decide

/-- C8 counterexample: the claim quantifies over every expression whose
trimmed text starts with `_`, but the expression text itself can mention an
acquisition call.  For `_.map(|x| input_json())` with Lines-from-stdin
input the synthesized source contains `input_json()` — one of the "other
seven" call forms — so the claim as stated fails. -/
theorem C8_counterexample :
    usesStdin "_.map(|x| input_json())" = true ∧
    "input_json()" ∈ acquisitionForms ∧
    "input_json()" ≠ acquisitionForm .lines true ∧
    ("input_json()".data <:+:
      (CodeGenerator.mk "_.map(|x| input_json())" ⟨[], .lines⟩ .debug).generate.data) := by
  refine ⟨by decide, by decide, by decide, by decide⟩

/-- C8 (amended): for each of the 8 combinations of input format and
source kind, provided the expression text does not itself contain the
substring `input`, the synthesized source of an expression whose trimmed
text starts with `_` contains exactly the corresponding one of the 8
input-acquisition call forms and none of the other seven. -/
theorem C8_format_matrix (expr : String) (files : List String)
    (fmt : InputFormat) (ofmt : OutputFormat)
    (hu : usesStdin expr = true)
    (hexpr : ¬ ("input".data <:+: expr.data)) :
    ((acquisitionForm fmt files.isEmpty).data <:+:
      (CodeGenerator.mk expr ⟨files, fmt⟩ ofmt).generate.data) ∧
    (∀ p ∈ acquisitionForms, p ≠ acquisitionForm fmt files.isEmpty →
      ¬ (p.data <:+: (CodeGenerator.mk expr ⟨files, fmt⟩ ofmt).generate.data)) := by
  constructor
  · cases files with
    | nil => exact acq_in_generate _ hu (acq_in_generateInput fmt true)
    | cons f fs =>
      cases fmt <;> exact acq_in_generate _ hu (acq_in_generateInput _ false)
  · intro p hp hne
    apply of_sideOK p _ hu hexpr
    show sideOK p (generateInput ⟨files, fmt⟩ ++ "    let result = ") = true
    cases files with
    | nil =>
      cases fmt <;> fin_cases hp <;>
        first
          | exact absurd rfl hne
          | decide
    | cons f fs =>
      have hgi : generateInput ⟨f :: fs, fmt⟩ = generateInput ⟨[""], fmt⟩ := by
        cases fmt <;> rfl
      rw [hgi]
      cases fmt <;> fin_cases hp <;>
        first
          | exact absurd rfl hne
          | decide

/-- Witness for C8 at the combination Csv × stdin with `_.take(5)`. -/
theorem C8_format_matrix_witness :
    (("input_csv()".data <:+:
      (CodeGenerator.mk "_.take(5)" ⟨[], .csv⟩ .debug).generate.data) ∧
     (∀ p ∈ acquisitionForms, p ≠ acquisitionForm .csv ([] : List String).isEmpty →
       ¬ (p.data <:+: (CodeGenerator.mk "_.take(5)" ⟨[], .csv⟩ .debug).generate.data))) :=
  C8_format_matrix "_.take(5)" [] .csv .debug (by decide) (by decide)

/-! ## Claim C10 — raw first-underscore substitution -/

/-- C10: the input-marker substitution is a raw single-character
replacement.  Part 1: `replacen('_', "stdin_data", 1)` rewrites the first
`_` of the text — even mid-identifier — and leaves every later `_`
verbatim.  Part 2: an expression whose trimmed text does not start with `_`
is emitted completely unchanged, with no input-acquisition statement
between the `fn main() {` opener and the `let result = ` binding.  Part 3:
when the trimmed text does start with `_`, the generated program is the
same skeleton with the acquisition statement inserted and the substituted
expression in the binding. -/
theorem C10_first_underscore_substitution :
    (∀ pre post : List Char, '_' ∉ pre →
       replaceFirstCharList '_' "stdin_data".data (pre ++ '_' :: post) =
         pre ++ "stdin_data".data ++ post) ∧
    (∀ g : CodeGenerator, usesStdin g.expression = false →
       g.generate =
         headerFor g.output_format ++ "    let result = " ++ g.expression ++
           genClose g.output_format (!hasTerminalOperation g.expression)) ∧
    (∀ g : CodeGenerator, usesStdin g.expression = true →
       g.generate =
         headerFor g.output_format ++ generateInput g.input_source ++
           "    let result = " ++ replacenUnderscore g.expression ++
           genClose g.output_format (!hasTerminalOperation g.expression)) := by
  refine ⟨?_, ?_, ?_⟩
  · intro pre post hpre
    induction pre with
    | nil => simp [replaceFirstCharList]
    | cons x xs ih =>
      have hx : x ≠ '_' := fun h => hpre (h ▸ List.mem_cons_self x xs)
      have ih' := ih (fun h => hpre (List.mem_cons_of_mem x h))
      simp only [List.cons_append, replaceFirstCharList, if_neg hx, List.append_eq]
      simp [ih']
  · intro g h
    simp only [CodeGenerator.generate, genLead, h, Bool.false_eq_true,
      if_false, String.append_empty, String.append_assoc]
  · intro g h
    simp only [CodeGenerator.generate, genLead, h, if_true, String.append_assoc]

/-- Witness for C10 at the example of the claim: `_foo.count()` becomes
`stdin_datafoo.count()` — the leading underscore of the identifier `_foo`
is replaced and the identifier is fused with the inserted name. -/
theorem C10_first_underscore_substitution_witness :
    replaceFirstCharList '_' "stdin_data".data ([] ++ '_' :: "foo.count()".data) =
      [] ++ "stdin_data".data ++ "foo.count()".data ∧
    (CodeGenerator.mk "lob(vec![1, 2, 3]).map(|x| x * 2)" ⟨[], .lines⟩ .debug).generate =
      headerFor .debug ++ "    let result = " ++ "lob(vec![1, 2, 3]).map(|x| x * 2)" ++
        genClose .debug true :=
  ⟨(C10_first_underscore_substitution.1 [] "foo.count()".data (by decide)),
   (C10_first_underscore_substitution.2.1
      (CodeGenerator.mk "lob(vec![1, 2, 3]).map(|x| x * 2)" ⟨[], .lines⟩ .debug)
      (by decide))⟩

/-! ## Filesystem model

The cache operates on a filesystem through `std::fs`.  The model is a
finite record of directories and files; paths are component lists (the
empty list is the filesystem root).  `remove_dir_all` mirrors the Rust
semantics of failing when the target is not an existing directory, and
`create_dir_all` creates the directory together with all its ancestors. -/

/-- A filesystem path as a list of components. -/
abbrev FsPath := List String

/-- Filesystem state: a set of directories and a map from paths to file
contents, both as lists. -/
structure Fs where
  dirs : List FsPath
  files : List (FsPath × String)
deriving DecidableEq, Repr

/-- There is a directory at `p`. -/
def pathIsDir (p : FsPath) (fs : Fs) : Bool :=
  fs.dirs.contains p

/-- There is a file at `p`. -/
def pathIsFile (p : FsPath) (fs : Fs) : Bool :=
  (fs.files.map Prod.fst).contains p

/-- Rust `Path::exists`: something (file or directory) is at `p`. -/
def pathExists (p : FsPath) (fs : Fs) : Bool :=
  pathIsDir p fs || pathIsFile p fs

/-- Rust `fs::write`: create or overwrite the file at `p`. -/
def writeFile (p : FsPath) (content : String) (fs : Fs) : Fs :=
  { fs with files := (p, content) :: fs.files.filter (fun f => ! (f.1 == p)) }

/-- All the prefixes of a path, shortest first (the path's ancestors plus
the path itself). -/
def prefixes (p : FsPath) : List FsPath :=
  (List.range (p.length + 1)).map (fun i => p.take i)

/-- Record a directory if not already present. -/
def insertDir (p : FsPath) (fs : Fs) : Fs :=
  if pathIsDir p fs then fs else { fs with dirs := p :: fs.dirs }

/-- Rust `fs::create_dir_all`: create the directory and all ancestors;
total (never fails in the model). -/
def createDirAll (p : FsPath) (fs : Fs) : Fs :=
  (prefixes p).foldl (fun acc q => insertDir q acc) fs

/-- The state after deleting the subtree rooted at `p`. -/
def removeFs (p : FsPath) (fs : Fs) : Fs :=
  { dirs := fs.dirs.filter (fun d => ! (p.isPrefixOf d)),
    files := fs.files.filter (fun f => ! (p.isPrefixOf f.1)) }

/-- Rust `fs::remove_dir_all`: remove the directory and everything under
it; fails when `p` is not an existing directory (NotFound / NotADirectory). -/
def removeDirAll (p : FsPath) (fs : Fs) : Except String Fs :=
  if pathIsDir p fs then .ok (removeFs p fs)
  else .error "remove_dir_all failed"

/-! ## Content-addressed cache (src/crates/lob-cli/src/cache.rs)

`Cache::hash_source` computes the SHA-256 hex digest of the source bytes;
the digest function itself is kept abstract (a parameter `hashFn` where it
is needed) since no claim depends on its arithmetic. -/

/-- Embedding of `Cache` (cache.rs lines 9-11): the resolved cache root. -/
structure Cache where
  cache_dir : FsPath

/-- Embedding of `Cache::binary_path` (cache.rs lines 69-71):
`cache_dir/binaries/<hash>`, existence not implied. -/
def Cache.binary_path (c : Cache) (hash : String) : FsPath :=
  c.cache_dir ++ ["binaries", hash]

/-- Embedding of `Cache::get_binary` (cache.rs lines 52-59): path returned
iff something exists at `cache_dir/binaries/<hash>`. -/
def Cache.get_binary (c : Cache) (hash : String) (fs : Fs) : Option FsPath :=
  let path := c.cache_dir ++ ["binaries", hash]
  if pathExists path fs then some path else none

/-- Embedding of `Cache::store_source` (cache.rs lines 62-66): writes the
source to `cache_dir/sources/<hash>.rs` (note the appended `.rs`
extension) and returns that path. -/
def Cache.store_source (c : Cache) (hash source : String) (fs : Fs) :
    FsPath × Fs :=
  let path := c.cache_dir ++ ["sources", hash ++ ".rs"]
  (path, writeFile path source fs)

/-- One subdirectory pass of `Cache::clear` (cache.rs lines 76-79 and
82-85): `if dir.exists() { remove_dir_all(dir)?; create_dir_all(dir)?; }`. -/
def stepClear (p : FsPath) (fs : Fs) : Except String Fs :=
  if pathExists p fs then
    match removeDirAll p fs with
    | .error e => .error e
    | .ok fs1 => .ok (createDirAll p fs1)
  else .ok fs

/-- Embedding of `Cache::clear` (cache.rs lines 74-88): the binaries pass
followed by the sources pass; each pass removes and recreates its
subdirectory only if it currently exists, and an absent subdirectory is
skipped entirely. -/
def Cache.clear (c : Cache) (fs : Fs) : Except String Fs :=
  match stepClear (c.cache_dir ++ ["binaries"]) fs with
  | .error e => .error e
  | .ok fs1 => stepClear (c.cache_dir ++ ["sources"]) fs1

/-! ## Claim C4 — cache entry paths -/

/-- C4 counterexample: `store_source` appends a `.rs` extension, so the
returned path's file name is `<key>.rs`, not exactly the key.  At key
"abc" the stored file name is "abc.rs". -/
theorem C4_counterexample :
    ((Cache.mk ["cache", "lob"]).store_source "abc" "src" (Fs.mk [] [])).1 =
      ["cache", "lob", "sources", "abc.rs"] ∧
    ((Cache.mk ["cache", "lob"]).store_source "abc" "src" (Fs.mk [] [])).1.getLast? ≠
      some "abc" := by
  constructor
  · rfl
  · decide

/-- C4 (amended): for every cache key `k`, the stored source copy lives at
`sources/<k>.rs` under the cache root — file name `<k>.rs`, not bare `k` —
and the stored binary at `binaries/<k>` with file name exactly `k`. -/
theorem C4_cache_paths (dir : FsPath) (k source : String) (fs : Fs) :
    ((Cache.mk dir).store_source k source fs).1 = dir ++ ["sources", k ++ ".rs"] ∧
    ((Cache.mk dir).store_source k source fs).1.getLast? = some (k ++ ".rs") ∧
    ((Cache.mk dir).store_source k source fs).1.dropLast = dir ++ ["sources"] ∧
    (Cache.mk dir).binary_path k = dir ++ ["binaries", k] ∧
    ((Cache.mk dir).binary_path k).getLast? = some k ∧
    ((Cache.mk dir).binary_path k).dropLast = dir ++ ["binaries"] := by
  refine ⟨rfl, ?_, ?_, rfl, ?_, ?_⟩
  · show (dir ++ ["sources", k ++ ".rs"]).getLast? = some (k ++ ".rs")
    rw [show dir ++ ["sources", k ++ ".rs"] = (dir ++ ["sources"]) ++ [k ++ ".rs"] by simp]
    exact List.getLast?_concat _
  · show (dir ++ ["sources", k ++ ".rs"]).dropLast = dir ++ ["sources"]
    rw [show dir ++ ["sources", k ++ ".rs"] = (dir ++ ["sources"]) ++ [k ++ ".rs"] by simp]
    exact List.dropLast_concat
  · show (dir ++ ["binaries", k]).getLast? = some k
    rw [show dir ++ ["binaries", k] = (dir ++ ["binaries"]) ++ [k] by simp]
    exact List.getLast?_concat _
  · show (dir ++ ["binaries", k]).dropLast = dir ++ ["binaries"]
    rw [show dir ++ ["binaries", k] = (dir ++ ["binaries"]) ++ [k] by simp]
    exact List.dropLast_concat

/-! ## Claim C9 — clear() semantics -/

/-- Bridge: `pathIsDir` is directory membership. -/
theorem pathIsDir_iff (p : FsPath) (fs : Fs) : pathIsDir p fs = true ↔ p ∈ fs.dirs := by
  simp [pathIsDir]

/-- Bridge: `pathIsFile` is membership among the file paths. -/
theorem pathIsFile_iff (p : FsPath) (fs : Fs) :
    pathIsFile p fs = true ↔ p ∈ fs.files.map Prod.fst := by
  simp [pathIsFile]

/-- `insertDir` does not touch files. -/
theorem files_insertDir (q : FsPath) (fs : Fs) : (insertDir q fs).files = fs.files := by
  rw [insertDir]
  split <;> rfl

/-- Folded `insertDir` does not touch files. -/
theorem files_foldl_insertDir (l : List FsPath) (fs : Fs) :
    (l.foldl (fun acc q => insertDir q acc) fs).files = fs.files := by
  induction l generalizing fs with
  | nil => rfl
  | cons q l ih => rw [List.foldl_cons, ih, files_insertDir]

/-- `createDirAll` does not touch files. -/
theorem files_createDirAll (p : FsPath) (fs : Fs) :
    (createDirAll p fs).files = fs.files :=
  files_foldl_insertDir _ _

/-- Directory membership after `insertDir`. -/
theorem mem_dirs_insertDir (d q : FsPath) (fs : Fs) :
    d ∈ (insertDir q fs).dirs ↔ d ∈ fs.dirs ∨ d = q := by
  rw [insertDir]
  by_cases h : pathIsDir q fs = true
  · rw [if_pos h]
    constructor
    · exact Or.inl
    · rintro (hd | rfl)
      · exact hd
      · exact (pathIsDir_iff _ _).mp h
  · rw [if_neg h]
    constructor
    · intro hd
      rcases List.mem_cons.mp hd with he | hm
      · exact Or.inr he
      · exact Or.inl hm
    · rintro (hd | rfl)
      · exact List.mem_cons_of_mem _ hd
      · exact List.mem_cons_self _ _

/-- Directory membership after folded `insertDir`. -/
theorem mem_dirs_foldl_insertDir (l : List FsPath) (fs : Fs) (d : FsPath) :
    d ∈ (l.foldl (fun acc q => insertDir q acc) fs).dirs ↔ d ∈ fs.dirs ∨ d ∈ l := by
  induction l generalizing fs with
  | nil => simp
  | cons q l ih =>
    rw [List.foldl_cons, ih, mem_dirs_insertDir, List.mem_cons]
    tauto

/-- Directory membership after `createDirAll`. -/
theorem mem_dirs_createDirAll (p : FsPath) (fs : Fs) (d : FsPath) :
    d ∈ (createDirAll p fs).dirs ↔ d ∈ fs.dirs ∨ d ∈ prefixes p :=
  mem_dirs_foldl_insertDir _ _ _

/-- Every member of `prefixes p` is a prefix of `p`. -/
theorem mem_prefixes_pfx {q p : FsPath} (h : q ∈ prefixes p) : q <+: p := by
  rw [prefixes] at h
  obtain ⟨i, _, heq⟩ := List.mem_map.mp h
  rw [← heq]
  exact List.take_prefix i p

/-- A path is among its own prefixes. -/
theorem self_mem_prefixes (p : FsPath) : p ∈ prefixes p := by
  rw [prefixes]
  refine List.mem_map.mpr ⟨p.length, ?_, List.take_length p⟩
  simp

/-- Prefix through an appended final component. -/
theorem append_singleton_pfx {dir : FsPath} {a : String} {q : FsPath} :
    (dir ++ [a]) <+: q ↔ ∃ r, q = dir ++ a :: r := by
  constructor
  · rintro ⟨t, ht⟩
    exact ⟨t, by rw [← ht]; simp⟩
  · rintro ⟨r, rfl⟩
    exact ⟨r, by simp⟩

/-- Sibling directories are not prefixes of one another. -/
theorem sibling_not_pfx {dir : FsPath} {a b : String} (hab : a ≠ b) :
    ¬ ((dir ++ [a]) <+: dir ++ [b]) := by
  intro h
  rw [append_singleton_pfx] at h
  obtain ⟨r, hr⟩ := h
  have h2 : ([b] : FsPath) = a :: r := List.append_cancel_left hr
  injection h2 with h3 _
  exact hab h3.symm

/-- Membership in `removeFs` directories. -/
theorem mem_dirs_removeFs (p : FsPath) (fs : Fs) (d : FsPath) :
    d ∈ (removeFs p fs).dirs ↔ d ∈ fs.dirs ∧ ¬ (p <+: d) := by
  simp [removeFs, List.mem_filter, ← List.isPrefixOf_iff_prefix]

/-- Membership in `removeFs` files. -/
theorem mem_files_removeFs (p : FsPath) (fs : Fs) (f : FsPath × String) :
    f ∈ (removeFs p fs).files ↔ f ∈ fs.files ∧ ¬ (p <+: f.1) := by
  simp [removeFs, List.mem_filter, ← List.isPrefixOf_iff_prefix]

/-- The directory `p` is empty in `fs`: no directory strictly below it and
no file at or below it. -/
def dirEmptyP (p : FsPath) (fs : Fs) : Prop :=
  (∀ d ∈ fs.dirs, d = p ∨ ¬ (p <+: d)) ∧ (∀ f ∈ fs.files, ¬ (p <+: f.1))

/-- After remove-then-recreate, the directory exists. -/
theorem step_isDir_self (p : FsPath) (fs : Fs) :
    pathIsDir p (createDirAll p (removeFs p fs)) = true := by
  rw [pathIsDir_iff, mem_dirs_createDirAll]
  exact Or.inr (self_mem_prefixes p)

/-- After remove-then-recreate, the directory is empty. -/
theorem step_dirEmpty (p : FsPath) (fs : Fs) :
    dirEmptyP p (createDirAll p (removeFs p fs)) := by
  constructor
  · intro d hd
    rw [mem_dirs_createDirAll] at hd
    rcases hd with hd | hd
    · exact Or.inr ((mem_dirs_removeFs _ _ _).mp hd).2
    · by_cases hpd : p <+: d
      · exact Or.inl ((mem_prefixes_pfx hd).eq_of_length
          (Nat.le_antisymm (mem_prefixes_pfx hd).length_le hpd.length_le))
      · exact Or.inr hpd
  · intro f hf
    rw [files_createDirAll] at hf
    exact ((mem_files_removeFs _ _ _).mp hf).2

/-- Remove-then-recreate of `p` preserves files outside the subtree of `p`. -/
theorem step_pres_file (p q : FsPath) (fs : Fs) (hpq : ¬ (p <+: q)) :
    pathIsFile q (createDirAll p (removeFs p fs)) = pathIsFile q fs := by
  have hiff : pathIsFile q (createDirAll p (removeFs p fs)) = true ↔
      pathIsFile q fs = true := by
    rw [pathIsFile_iff, pathIsFile_iff, files_createDirAll]
    constructor
    · intro h
      obtain ⟨f, hf, hfst⟩ := List.mem_map.mp h
      exact List.mem_map.mpr ⟨f, ((mem_files_removeFs _ _ _).mp hf).1, hfst⟩
    · intro h
      obtain ⟨f, hf, hfst⟩ := List.mem_map.mp h
      refine List.mem_map.mpr ⟨f, (mem_files_removeFs _ _ _).mpr ⟨hf, ?_⟩, hfst⟩
      rw [hfst]
      exact hpq
  cases h1 : pathIsFile q (createDirAll p (removeFs p fs)) <;>
    cases h2 : pathIsFile q fs <;> simp_all

/-- Remove-then-recreate of `p` preserves sibling directories. -/
theorem step_pres_dir (p q : FsPath) (fs : Fs) (hpq : ¬ (p <+: q)) (hqp : ¬ (q <+: p)) :
    pathIsDir q (createDirAll p (removeFs p fs)) = pathIsDir q fs := by
  have hiff : pathIsDir q (createDirAll p (removeFs p fs)) = true ↔
      pathIsDir q fs = true := by
    rw [pathIsDir_iff, pathIsDir_iff, mem_dirs_createDirAll]
    constructor
    · intro h
      rcases h with h | h
      · exact ((mem_dirs_removeFs _ _ _).mp h).1
      · exact absurd (mem_prefixes_pfx h) hqp
    · intro h
      exact Or.inl ((mem_dirs_removeFs _ _ _).mpr ⟨h, hpq⟩)
  cases h1 : pathIsDir q (createDirAll p (removeFs p fs)) <;>
    cases h2 : pathIsDir q fs <;> simp_all

/-- Remove-then-recreate of `p` preserves existence of siblings. -/
theorem step_pres_exists (p q : FsPath) (fs : Fs) (hpq : ¬ (p <+: q)) (hqp : ¬ (q <+: p)) :
    pathExists q (createDirAll p (removeFs p fs)) = pathExists q fs := by
  rw [pathExists, pathExists, step_pres_dir p q fs hpq hqp, step_pres_file p q fs hpq]

/-- Remove-then-recreate of `p` preserves emptiness of a sibling. -/
theorem step_pres_empty (p q : FsPath) (fs : Fs) (hqp : ¬ (q <+: p))
    (he : dirEmptyP q fs) : dirEmptyP q (createDirAll p (removeFs p fs)) := by
  constructor
  · intro d hd
    rw [mem_dirs_createDirAll] at hd
    rcases hd with hd | hd
    · exact he.1 d ((mem_dirs_removeFs _ _ _).mp hd).1
    · right
      intro hqd
      exact hqp (hqd.trans (mem_prefixes_pfx hd))
  · intro f hf
    rw [files_createDirAll] at hf
    exact he.2 f ((mem_files_removeFs _ _ _).mp hf).1

/-- `stepClear` on an existing directory removes and recreates it. -/
theorem stepClear_of_exists (p : FsPath) (fs : Fs)
    (hx : pathExists p fs = true) (hnf : pathIsFile p fs = false) :
    stepClear p fs = .ok (createDirAll p (removeFs p fs)) := by
  have hdir : pathIsDir p fs = true := by
    cases hb : pathIsDir p fs
    · rw [pathExists, hb, hnf] at hx
      simp at hx
    · rfl
  rw [stepClear, if_pos hx, removeDirAll, if_pos hdir]

/-- `stepClear` on an absent directory is a no-op that succeeds. -/
theorem stepClear_of_not_exists (p : FsPath) (fs : Fs)
    (hx : pathExists p fs = false) : stepClear p fs = .ok fs := by
  rw [stepClear, if_neg (by rw [hx]; exact Bool.false_ne_true)]

/-- C9 counterexample: `clear` on a cache whose `binaries` subdirectory is
absent succeeds but does not recreate it — after the call the subdirectory
still does not exist, contradicting the claim that after a successful
clear both subdirectories exist. -/
theorem C9_counterexample :
    ((Cache.mk ["c"]).clear (Fs.mk [["c"], ["c", "sources"]] [])).toOption.map
      (fun fs' => pathExists ["c", "binaries"] fs') = some false := by
  decide

/-- C9 (amended): `clear` is safe to call when the subdirectories are
already absent — it never errors merely because a subdirectory does not
exist (assuming no plain *file* occupies a subdirectory path, which Rust's
`remove_dir_all` would reject) — and destroys and recreates exactly those
subdirectories that existed: an existing subdirectory is empty afterwards,
while an absent one is skipped and remains absent. -/
theorem C9_clear (dir : FsPath) (fs : Fs)
    (hbf : pathIsFile (dir ++ ["binaries"]) fs = false)
    (hsf : pathIsFile (dir ++ ["sources"]) fs = false) :
    ∃ fs', (Cache.mk dir).clear fs = .ok fs' ∧
      (pathExists (dir ++ ["binaries"]) fs = true →
        pathIsDir (dir ++ ["binaries"]) fs' = true ∧ dirEmptyP (dir ++ ["binaries"]) fs') ∧
      (pathExists (dir ++ ["binaries"]) fs = false →
        pathExists (dir ++ ["binaries"]) fs' = false) ∧
      (pathExists (dir ++ ["sources"]) fs = true →
        pathIsDir (dir ++ ["sources"]) fs' = true ∧ dirEmptyP (dir ++ ["sources"]) fs') ∧
      (pathExists (dir ++ ["sources"]) fs = false →
        pathExists (dir ++ ["sources"]) fs' = false) := by
  have hbs : ¬ ((dir ++ ["binaries"]) <+: dir ++ ["sources"]) :=
    sibling_not_pfx (by decide)
  have hsb : ¬ ((dir ++ ["sources"]) <+: dir ++ ["binaries"]) :=
    sibling_not_pfx (by decide)
  have hclear : (Cache.mk dir).clear fs =
      match stepClear (dir ++ ["binaries"]) fs with
      | .error e => .error e
      | .ok fs1 => stepClear (dir ++ ["sources"]) fs1 := rfl
  cases hbx : pathExists (dir ++ ["binaries"]) fs with
  | true =>
    have h1 := stepClear_of_exists _ _ hbx hbf
    have hsf1 : pathIsFile (dir ++ ["sources"])
        (createDirAll (dir ++ ["binaries"]) (removeFs (dir ++ ["binaries"]) fs)) =
        pathIsFile (dir ++ ["sources"]) fs := step_pres_file _ _ _ hbs
    have hsx1 : pathExists (dir ++ ["sources"])
        (createDirAll (dir ++ ["binaries"]) (removeFs (dir ++ ["binaries"]) fs)) =
        pathExists (dir ++ ["sources"]) fs := step_pres_exists _ _ _ hbs hsb
    cases hsx : pathExists (dir ++ ["sources"]) fs with
    | true =>
      have h2 := stepClear_of_exists (dir ++ ["sources"]) _
        (by rw [hsx1]; exact hsx) (by rw [hsf1]; exact hsf)
      refine ⟨_, by rw [hclear, h1]; exact h2, fun _ => ?_, ?_, fun _ => ?_, ?_⟩
      · constructor
        · rw [step_pres_dir _ _ _ hsb hbs]
          exact step_isDir_self _ _
        · exact step_pres_empty _ _ _ hbs (step_dirEmpty _ _)
      · exact fun h => Bool.noConfusion h
      · exact ⟨step_isDir_self _ _, step_dirEmpty _ _⟩
      · exact fun h => Bool.noConfusion h
    | false =>
      have h2 := stepClear_of_not_exists (dir ++ ["sources"]) _ (by rw [hsx1]; exact hsx)
      refine ⟨_, by rw [hclear, h1]; exact h2, fun _ => ?_, ?_, ?_, fun _ => ?_⟩
      · exact ⟨step_isDir_self _ _, step_dirEmpty _ _⟩
      · exact fun h => Bool.noConfusion h
      · exact fun h => Bool.noConfusion h
      · rw [hsx1]
        exact hsx
  | false =>
    have h1 := stepClear_of_not_exists (dir ++ ["binaries"]) fs hbx
    cases hsx : pathExists (dir ++ ["sources"]) fs with
    | true =>
      have h2 := stepClear_of_exists (dir ++ ["sources"]) fs hsx hsf
      refine ⟨_, by rw [hclear, h1]; exact h2, ?_, fun _ => ?_, fun _ => ?_, ?_⟩
      · exact fun h => Bool.noConfusion h
      · rw [step_pres_exists _ _ _ hsb hbs]
        exact hbx
      · exact ⟨step_isDir_self _ _, step_dirEmpty _ _⟩
      · exact fun h => Bool.noConfusion h
    | false =>
      have h2 := stepClear_of_not_exists (dir ++ ["sources"]) fs hsx
      refine ⟨fs, by rw [hclear, h1]; exact h2, ?_, fun _ => hbx, ?_, fun _ => hsx⟩
      · exact fun h => Bool.noConfusion h
      · exact fun h => Bool.noConfusion h

/-- Witness for C9 on a cache with an existing, populated `binaries`
subdirectory and an existing empty `sources` subdirectory. -/
theorem C9_clear_witness :
    ∃ fs', (Cache.mk ["c"]).clear
        (Fs.mk [["c"], ["c", "binaries"], ["c", "sources"]]
          [(["c", "binaries", "h1"], "bin")]) = .ok fs' ∧
      (pathExists ["c", "binaries"]
          (Fs.mk [["c"], ["c", "binaries"], ["c", "sources"]]
            [(["c", "binaries", "h1"], "bin")]) = true →
        pathIsDir ["c", "binaries"] fs' = true ∧ dirEmptyP ["c", "binaries"] fs') ∧
      (pathExists ["c", "binaries"]
          (Fs.mk [["c"], ["c", "binaries"], ["c", "sources"]]
            [(["c", "binaries", "h1"], "bin")]) = false →
        pathExists ["c", "binaries"] fs' = false) ∧
      (pathExists ["c", "sources"]
          (Fs.mk [["c"], ["c", "binaries"], ["c", "sources"]]
            [(["c", "binaries", "h1"], "bin")]) = true →
        pathIsDir ["c", "sources"] fs' = true ∧ dirEmptyP ["c", "sources"] fs') ∧
      (pathExists ["c", "sources"]
          (Fs.mk [["c"], ["c", "binaries"], ["c", "sources"]]
            [(["c", "binaries", "h1"], "bin")]) = false →
        pathExists ["c", "sources"] fs' = false) :=
  C9_clear ["c"]
    (Fs.mk [["c"], ["c", "binaries"], ["c", "sources"]]
      [(["c", "binaries", "h1"], "bin")]) (by decide) (by decide)

/-! ## Error taxonomy (src/crates/lob-cli/src/error.rs)

`LobError` has exactly five variants (error.rs lines 9-29).  The
`Io` payload (a `std::io::Error`) is modeled by its message string.  The
diagnostic formatter `LobError::format_compilation_error` (error.rs lines
36-143), whose output text no claim here inspects, is kept abstract as a
function parameter `fmtFn` wherever the compiler wrapper needs it. -/

inductive LobError where
  | ioError (msg : String)
  | compilation (msg : String)
  | cache (msg : String)
  | toolchain (msg : String)
  | invalidExpression (msg : String)
deriving DecidableEq, Repr

/-- The variant (discriminant) of a `LobError`, forgetting the payload. -/
inductive LobErrorKind where
  | ioError
  | compilation
  | cache
  | toolchain
  | invalidExpression
deriving DecidableEq, Repr

/-- Variant of an error value. -/
def LobError.kind : LobError → LobErrorKind
  | .ioError _ => .ioError
  | .compilation _ => .compilation
  | .cache _ => .cache
  | .toolchain _ => .toolchain
  | .invalidExpression _ => .invalidExpression

/-! ## Compiler invocation and caching pipeline
(src/crates/lob-cli/src/compile.rs) -/

/-- The externally observable behavior of one compiler subprocess
invocation (`cmd.output()` in compile.rs line 192): whether it exits
successfully, whether it leaves a file at the requested output path, that
file's content, and the captured stderr text.  The subprocess is an
external program, so its behavior is an input of the model. -/
structure CompilerOutcome where
  success : Bool
  writesOutput : Bool
  outputContent : String
  stderr : String

/-- Embedding of the execution half of `Compiler::compile` (compile.rs
lines 154-201): the subprocess runs first — its filesystem effect lands
directly at `output_path`, which `compile_and_cache` sets to the cache's
`binary_path` — and only then is the exit status inspected; a non-zero
status yields `LobError::Compilation` carrying the formatter's output
(line 197).  Argument assembly is modeled separately (`compileArgs`). -/
def compileRun (fmtFn : String → Option String → String)
    (outcome : CompilerOutcome) (output_path : FsPath)
    (user_expr : Option String) (fs : Fs) : Except LobError Unit × Fs :=
  let fs' := if outcome.writesOutput then writeFile output_path outcome.outputContent fs
             else fs
  if outcome.success then (.ok (), fs')
  else (.error (.compilation (fmtFn outcome.stderr user_expr)), fs')

/-- Result of a `compile_and_cache` run.  The two flags are observations of
which branch executed: whether the compiler subprocess was invoked and
whether the source was stored into the cache. -/
structure CacheRun where
  result : Except LobError FsPath
  fs : Fs
  invokedCompiler : Bool
  storedSource : Bool
deriving Repr

/-- Embedding of `Compiler::compile_and_cache` (compile.rs lines 204-224):
hash the source (`hashFn` abstracts the SHA-256 hex digest of
`Cache::hash_source`), probe the cache with `get_binary` and return the
binary path immediately on a hit; otherwise store the source, compile
directly into `binary_path(hash)`, and return that path. -/
def compileAndCache (fmtFn : String → Option String → String)
    (hashFn : String → String) (c : Cache) (outcome : CompilerOutcome)
    (source : String) (user_expr : Option String) (fs : Fs) : CacheRun :=
  let hash := hashFn source
  match c.get_binary hash fs with
  | some binary_path => ⟨.ok binary_path, fs, false, false⟩
  | none =>
    let stored := c.store_source hash source fs
    let binary_path := c.binary_path hash
    match compileRun fmtFn outcome binary_path user_expr stored.2 with
    | (.ok _, fs2) => ⟨.ok binary_path, fs2, true, true⟩
    | (.error e, fs2) => ⟨.error e, fs2, true, true⟩

/-- `get_binary` in closed form. -/
theorem get_binary_eq (c : Cache) (hash : String) (fs : Fs) :
    c.get_binary hash fs =
      if pathExists (c.cache_dir ++ ["binaries", hash]) fs then
        some (c.cache_dir ++ ["binaries", hash])
      else none := rfl

/-- A cache probe hit returns the binary path and implies its existence. -/
theorem get_binary_some {c : Cache} {hash : String} {fs : Fs} {q : FsPath}
    (h : c.get_binary hash fs = some q) :
    q = c.cache_dir ++ ["binaries", hash] ∧
      pathExists (c.cache_dir ++ ["binaries", hash]) fs = true := by
  rw [get_binary_eq] at h
  by_cases hx : pathExists (c.cache_dir ++ ["binaries", hash]) fs = true
  · rw [if_pos hx] at h
    exact ⟨(Option.some.inj h).symm, hx⟩
  · rw [if_neg hx] at h
    cases h

/-- A successful `compile_and_cache` always returns `binary_path(hash)`. -/
theorem compileAndCache_ok {fmtFn : String → Option String → String}
    {hashFn : String → String} {c : Cache} {o : CompilerOutcome}
    {source : String} {ue : Option String} {fs : Fs} {p : FsPath}
    (h : (compileAndCache fmtFn hashFn c o source ue fs).result = .ok p) :
    p = c.cache_dir ++ ["binaries", hashFn source] := by
  rw [compileAndCache] at h
  cases hgb : c.get_binary (hashFn source) fs with
  | some q =>
    rw [hgb] at h
    have h' : (Except.ok q : Except LobError FsPath) = .ok p := h
    injection h' with h''
    rw [← h'']
    exact (get_binary_some hgb).1
  | none =>
    rw [hgb] at h
    cases ho : o.success with
    | false => simp [compileRun, ho] at h
    | true =>
      simp [compileRun, ho] at h
      rw [← h]
      rfl

/-! ## Claim C1 — cache idempotence -/

/-- C1: if a `compile_and_cache` run returns `Ok p` and the binary file
exists at `binary_path(hash)` afterwards, then `p` is that binary path,
and a second run on the resulting state — under any compiler behavior
whatsoever — returns the same path with the filesystem unchanged, without
invoking the compiler and without storing the source again (a cache hit). -/
theorem C1_cache_idempotent (fmtFn : String → Option String → String)
    (hashFn : String → String) (dir : FsPath) (o1 o2 : CompilerOutcome)
    (source : String) (ue1 ue2 : Option String) (fs : Fs) (p : FsPath)
    (h1 : (compileAndCache fmtFn hashFn (Cache.mk dir) o1 source ue1 fs).result = .ok p)
    (h2 : pathExists ((Cache.mk dir).binary_path (hashFn source))
        (compileAndCache fmtFn hashFn (Cache.mk dir) o1 source ue1 fs).fs = true) :
    p = (Cache.mk dir).binary_path (hashFn source) ∧
    compileAndCache fmtFn hashFn (Cache.mk dir) o2 source ue2
        (compileAndCache fmtFn hashFn (Cache.mk dir) o1 source ue1 fs).fs =
      ⟨.ok p, (compileAndCache fmtFn hashFn (Cache.mk dir) o1 source ue1 fs).fs,
        false, false⟩ := by
  have hp : p = dir ++ ["binaries", hashFn source] := compileAndCache_ok h1
  refine ⟨hp, ?_⟩
  have h2' : pathExists (dir ++ ["binaries", hashFn source])
      (compileAndCache fmtFn hashFn (Cache.mk dir) o1 source ue1 fs).fs = true := h2
  have hgb2 : (Cache.mk dir).get_binary (hashFn source)
      (compileAndCache fmtFn hashFn (Cache.mk dir) o1 source ue1 fs).fs =
      some (dir ++ ["binaries", hashFn source]) := by
    show (if pathExists (dir ++ ["binaries", hashFn source])
        (compileAndCache fmtFn hashFn (Cache.mk dir) o1 source ue1 fs).fs = true then
      some (dir ++ ["binaries", hashFn source]) else none) =
      some (dir ++ ["binaries", hashFn source])
    rw [if_pos h2']
  rw [compileAndCache, hgb2, hp]

/-- Witness for C1: a concrete first run (cache miss, successful compile
that writes the binary) followed by a second run under a hostile compiler
behavior that would fail — the second run never consults it. -/
theorem C1_cache_idempotent_witness :
    (["c", "binaries", "h"] : FsPath) =
      (Cache.mk ["c"]).binary_path ((fun _ => "h") "S") ∧
    compileAndCache (fun s _ => s) (fun _ => "h") (Cache.mk ["c"])
        (CompilerOutcome.mk false false "" "boom") "S" none
        (compileAndCache (fun s _ => s) (fun _ => "h") (Cache.mk ["c"])
          (CompilerOutcome.mk true true "BIN" "") "S" none
          (Fs.mk [["c"], ["c", "binaries"], ["c", "sources"]] [])).fs =
      ⟨.ok ["c", "binaries", "h"],
        (compileAndCache (fun s _ => s) (fun _ => "h") (Cache.mk ["c"])
          (CompilerOutcome.mk true true "BIN" "") "S" none
          (Fs.mk [["c"], ["c", "binaries"], ["c", "sources"]] [])).fs,
        false, false⟩ :=
  C1_cache_idempotent (fun s _ => s) (fun _ => "h") ["c"]
    (CompilerOutcome.mk true true "BIN" "") (CompilerOutcome.mk false false "" "boom")
    "S" none none (Fs.mk [["c"], ["c", "binaries"], ["c", "sources"]] [])
    ["c", "binaries", "h"] rfl rfl

/-! ## Claim C3 — cache-binary integrity -/

/-- Writing a file at `p` does not create anything at a different path. -/
theorem pathExists_writeFile_other {p q : FsPath} (content : String) (fs : Fs)
    (hne : q ≠ p) : pathExists q (writeFile p content fs) = pathExists q fs := by
  have hdirs : pathIsDir q (writeFile p content fs) = pathIsDir q fs := rfl
  have hiff : pathIsFile q (writeFile p content fs) = true ↔ pathIsFile q fs = true := by
    rw [pathIsFile_iff, pathIsFile_iff]
    constructor
    · intro h
      obtain ⟨f, hf, hfst⟩ := List.mem_map.mp h
      rcases List.mem_cons.mp hf with he | hm
      · exact absurd (by rw [← hfst, he]) hne
      · exact List.mem_map.mpr ⟨f, (List.mem_filter.mp hm).1, hfst⟩
    · intro h
      obtain ⟨f, hf, hfst⟩ := List.mem_map.mp h
      refine List.mem_map.mpr ⟨f, List.mem_cons_of_mem _ (List.mem_filter.mpr ⟨hf, ?_⟩), hfst⟩
      simp only [Bool.not_eq_true']
      rw [beq_eq_false_iff_ne]
      rw [hfst]
      exact hne
  rw [pathExists, pathExists, hdirs]
  cases h1 : pathIsFile q (writeFile p content fs) <;>
    cases h2 : pathIsFile q fs <;> simp_all

/-- The source path and the binary path of a key never coincide. -/
theorem source_path_ne_binary_path (dir : FsPath) (h1 h2 : String) :
    dir ++ ["sources", h1 ++ ".rs"] ≠ dir ++ ["binaries", h2] := by
  intro h
  have h' := List.append_cancel_left h
  injection h' with h3 _
  exact absurd h3 (by decide)

/-- C3 counterexample: the binary is not written by the orchestrator after
a success check — the compiler subprocess is invoked with
`binary_path(key)` as its direct output path (`-o`, compile.rs lines
167-168 and 219-221).  A compiler behavior that writes its output file
and then reports failure leaves a file at `binary_path(key)` even though
`compile_and_cache` returns a Compilation error. -/
theorem C3_counterexample :
    pathExists ["c", "binaries", "h"]
      (Fs.mk [["c"], ["c", "binaries"], ["c", "sources"]] []) = false ∧
    (compileAndCache (fun s _ => s) (fun _ => "h") (Cache.mk ["c"])
      (CompilerOutcome.mk false true "partial" "err") "S" none
      (Fs.mk [["c"], ["c", "binaries"], ["c", "sources"]] [])).result =
      .error (.compilation "err") ∧
    pathExists ["c", "binaries", "h"]
      (compileAndCache (fun s _ => s) (fun _ => "h") (Cache.mk ["c"])
        (CompilerOutcome.mk false true "partial" "err") "S" none
        (Fs.mk [["c"], ["c", "binaries"], ["c", "sources"]] [])).fs = true :=
  ⟨rfl, rfl, rfl⟩

/-- C3 (amended): the orchestrator never writes the binary itself; the
compiler subprocess writes directly to `binary_path(key)`, so the
invariant "a file at `binary_path(key)` is only ever a successfully
compiled binary" holds exactly under the assumption that the compiler
creates its output file only when it succeeds.  Under that assumption,
starting from a state with no file at `binary_path(key)`: a failed
`compile_and_cache` leaves nothing at `binary_path(key)`, and conversely a
file at `binary_path(key)` afterwards means the run returned that path
successfully. -/
theorem C3_binary_only_on_success (fmtFn : String → Option String → String)
    (hashFn : String → String) (dir : FsPath) (o : CompilerOutcome)
    (source : String) (ue : Option String) (fs : Fs)
    (hwrite : o.writesOutput = true → o.success = true)
    (habsent : pathExists (dir ++ ["binaries", hashFn source]) fs = false) :
    (∀ e, (compileAndCache fmtFn hashFn (Cache.mk dir) o source ue fs).result = .error e →
      pathExists (dir ++ ["binaries", hashFn source])
        (compileAndCache fmtFn hashFn (Cache.mk dir) o source ue fs).fs = false) ∧
    (pathExists (dir ++ ["binaries", hashFn source])
        (compileAndCache fmtFn hashFn (Cache.mk dir) o source ue fs).fs = true →
      (compileAndCache fmtFn hashFn (Cache.mk dir) o source ue fs).result =
        .ok (dir ++ ["binaries", hashFn source])) := by
  have hgb : (Cache.mk dir).get_binary (hashFn source) fs = none := by
    rw [get_binary_eq, if_neg (by rw [habsent]; exact Bool.false_ne_true)]
  have hsrcne : (dir ++ ["sources", hashFn source ++ ".rs"]) ≠ dir ++ ["binaries", hashFn source] :=
    source_path_ne_binary_path dir _ _
  have hfs1 : pathExists (dir ++ ["binaries", hashFn source])
      (writeFile (dir ++ ["sources", hashFn source ++ ".rs"]) source fs) = false := by
    rw [pathExists_writeFile_other source fs (fun h => hsrcne h.symm)]
    exact habsent
  cases hw : o.writesOutput with
  | true =>
    have hsucc := hwrite hw
    constructor
    · intro e he
      rw [compileAndCache, hgb] at he
      simp [compileRun, Cache.binary_path, hw, hsucc] at he
    · intro _
      rw [compileAndCache, hgb]
      simp [compileRun, Cache.binary_path, hw, hsucc]
  | false =>
    cases hsucc : o.success with
    | true =>
      constructor
      · intro e he
        rw [compileAndCache, hgb] at he
        simp [compileRun, Cache.binary_path, hw, hsucc] at he
      · intro _
        rw [compileAndCache, hgb]
        simp [compileRun, Cache.binary_path, hw, hsucc]
    | false =>
      constructor
      · intro e _
        rw [compileAndCache, hgb]
        simp [compileRun, Cache.binary_path, Cache.store_source, hw, hsucc]
        exact hfs1
      · intro hpresent
        rw [compileAndCache, hgb] at hpresent
        simp [compileRun, Cache.binary_path, Cache.store_source, hw, hsucc] at hpresent
        rw [hfs1] at hpresent
        cases hpresent

/-- Witness for C3 with a well-behaved compiler that writes only on
success, here failing without writing: nothing appears at the binary
path. -/
theorem C3_binary_only_on_success_witness :
    (∀ e, (compileAndCache (fun s _ => s) (fun _ => "h") (Cache.mk ["c"])
        (CompilerOutcome.mk false false "" "err") "S" none
        (Fs.mk [["c"], ["c", "binaries"], ["c", "sources"]] [])).result = .error e →
      pathExists ["c", "binaries", "h"]
        (compileAndCache (fun s _ => s) (fun _ => "h") (Cache.mk ["c"])
          (CompilerOutcome.mk false false "" "err") "S" none
          (Fs.mk [["c"], ["c", "binaries"], ["c", "sources"]] [])).fs = false) ∧
    (pathExists ["c", "binaries", "h"]
        (compileAndCache (fun s _ => s) (fun _ => "h") (Cache.mk ["c"])
          (CompilerOutcome.mk false false "" "err") "S" none
          (Fs.mk [["c"], ["c", "binaries"], ["c", "sources"]] [])).fs = true →
      (compileAndCache (fun s _ => s) (fun _ => "h") (Cache.mk ["c"])
          (CompilerOutcome.mk false false "" "err") "S" none
          (Fs.mk [["c"], ["c", "binaries"], ["c", "sources"]] [])).result =
        .ok ["c", "binaries", "h"]) :=
  C3_binary_only_on_success (fun s _ => s) (fun _ => "h") ["c"]
    (CompilerOutcome.mk false false "" "err") "S" none
    (Fs.mk [["c"], ["c", "binaries"], ["c", "sources"]] [])
    (fun h => Bool.noConfusion h) rfl

/-! ## Claim C2 — child exit status reporting (src/crates/lob-cli/src/main.rs) -/

/-- Display of `std::process::ExitStatus` for a child that exited with a
code: `exit status: N`. -/
def exitStatusDisplay (code : Nat) : String :=
  "exit status: " ++ toString code

/-- The error `run()` constructs for a non-zero child exit (main.rs lines
226-231): `LobError::Compilation(format!("Execution failed with status: {}", status))`. -/
def childExitError (code : Nat) : LobError :=
  .compilation ("Execution failed with status: " ++ exitStatusDisplay code)

/-- Embedding of the status check after `child.wait()` (main.rs lines
226-231): a non-zero exit aborts the run with `childExitError`. -/
def runExecStatusCheck (code : Nat) : Except LobError Unit :=
  if code = 0 then .ok () else .error (childExitError code)

/-- C2 counterexample: the claim says the non-zero-child-exit error is not
the same variant as the non-zero-compiler-exit error.  But `run()` wraps
the child failure in `LobError::Compilation` (main.rs line 227) — the very
variant `Compiler::compile` returns on compiler failure (compile.rs line
197): at a concrete failing compile and child exit status 3, both errors
have the Compilation variant. -/
theorem C2_counterexample :
    (compileRun (fun s _ => s) (CompilerOutcome.mk false false "" "err")
        ["c", "binaries", "h"] none (Fs.mk [] [])).1 =
      .error (.compilation "err") ∧
    childExitError 3 = .compilation "Execution failed with status: exit status: 3" ∧
    LobError.kind (.compilation "err") = LobError.kind (childExitError 3) :=
  ⟨rfl, rfl, rfl⟩

/-- C2 (amended): a non-zero child exit aborts the run with an error that
carries the numeric status in its message
(`Execution failed with status: exit status: <code>`), but its variant is
the same `LobError::Compilation` used for compiler failures — the two are
distinguished only by message text, not by variant. -/
theorem C2_child_exit (code : Nat) (h : code ≠ 0) :
    runExecStatusCheck code = .error (childExitError code) ∧
    childExitError code =
      .compilation ("Execution failed with status: exit status: " ++ toString code) ∧
    ((toString code).data <:+:
      ("Execution failed with status: exit status: " ++ toString code).data) ∧
    LobError.kind (childExitError code) = LobErrorKind.compilation := by
  refine ⟨?_, rfl, ?_, rfl⟩
  · rw [runExecStatusCheck, if_neg h]
  · exact sfx_ifx ⟨"Execution failed with status: exit status: ".data,
      (String.data_append _ _).symm⟩

/-- Witness for C2 at exit status 3. -/
theorem C2_child_exit_witness :
    runExecStatusCheck 3 = .error (childExitError 3) ∧
    childExitError 3 =
      .compilation ("Execution failed with status: exit status: " ++ toString 3) ∧
    ((toString 3).data <:+:
      ("Execution failed with status: exit status: " ++ toString 3).data) ∧
    LobError.kind (childExitError 3) = LobErrorKind.compilation :=
  C2_child_exit 3 (by decide)

/-! ## Claim C6 — support-library artifact discovery
(src/crates/lob-cli/src/compile.rs, `Compiler::find_target_dir` and
`Compiler::compile`) -/

/-- The environment probed by `find_target_dir`: the
`CARGO_MANIFEST_DIR` variable, the running executable's path, and the
current working directory (each may be unavailable). -/
structure BuildEnv where
  manifestDir : Option FsPath
  exePath : Option FsPath
  cwd : Option FsPath

/-- Rust `Path::ancestors`: the path itself, then each parent up to the
root (the empty component list). -/
def ancestors (p : FsPath) : List FsPath :=
  (List.range (p.length + 1)).map (fun i => p.take (p.length - i))

/-- The per-candidate test of every return site in `find_target_dir`
(compile.rs lines 26-28, 32-34, 46-48, 56-59, 62-66, 71-74, 82-85, 89-92,
99-101, 105-107): `if prelude_lib.exists() { return Some(dir) }` where
`prelude_lib = dir.join("liblob_prelude.rlib")`.  Only the prelude
artifact is tested; `liblob_core.rlib` is never checked. -/
def preludeCheck (d : FsPath) (fs : Fs) : Option FsPath :=
  if pathExists (d ++ ["liblob_prelude.rlib"]) fs then some d else none

/-- The ordered candidate roots probed by `find_target_dir` (compile.rs
lines 18-118): strategy 1 walks the ancestors of `CARGO_MANIFEST_DIR`
trying `target/debug` then `target/release` under each; strategy 2 looks
relative to the executable — the parent of a `deps` directory, then the
executable directory's parent joined with `debug` and `release`, then the
executable's own directory; strategy 3 tries `target/debug` and
`target/release` under the current directory; strategy 4 repeats that
under every ancestor of the current directory. -/
def findTargetDirCandidates (env : BuildEnv) : List FsPath :=
  (match env.manifestDir with
   | some root =>
     (ancestors root).flatMap (fun a =>
       [a ++ ["target", "debug"], a ++ ["target", "release"]])
   | none => []) ++
  (match env.exePath with
   | some exe =>
     match exe with
     | [] => []
     | _ :: _ =>
       let exeDir := exe.dropLast
       (if exeDir.getLast? = some "deps" then [exeDir.dropLast] else []) ++
       (match exeDir with
        | [] => []
        | _ :: _ => [exeDir.dropLast ++ ["debug"], exeDir.dropLast ++ ["release"]]) ++
       [exeDir]
   | none => []) ++
  (match env.cwd with
   | some cwd => [cwd ++ ["target", "debug"], cwd ++ ["target", "release"]]
   | none => []) ++
  (match env.cwd with
   | some cwd =>
     (ancestors cwd).flatMap (fun a =>
       [a ++ ["target", "debug"], a ++ ["target", "release"]])
   | none => [])

/-- Embedding of `Compiler::find_target_dir` (compile.rs lines 18-119):
the first candidate root whose `liblob_prelude.rlib` exists wins. -/
def findTargetDir (env : BuildEnv) (fs : Fs) : Option FsPath :=
  (findTargetDirCandidates env).findSome? (fun d => preludeCheck d fs)

/-- Display form of a path (absolute, slash separated). -/
def pathString (p : FsPath) : String :=
  "/" ++ String.intercalate "/" p

/-- Embedding of the argument assembly of `Compiler::compile` (compile.rs
lines 160-190): the fixed flag set, then — only when a target directory
was resolved — the two `--extern` directives and the `-L` dependency
search directory, then the optional `--sysroot` override. -/
def compileArgs (targetDir : Option FsPath) (sysroot : Option FsPath)
    (output_path source_path : String) : List String :=
  ["--edition=2021", "-C", "opt-level=3", "--crate-type", "bin", "-o",
   output_path, source_path] ++
  (match targetDir with
   | some td =>
     ["--extern", "lob_prelude=" ++ pathString td ++ "/liblob_prelude.rlib",
      "--extern", "lob_core=" ++ pathString td ++ "/liblob_core.rlib",
      "-L", "dependency=" ++ pathString (td ++ ["deps"])]
   | none => []) ++
  (match sysroot with
   | some s => ["--sysroot", pathString s]
   | none => [])

/-- Inversion for a successful candidate test. -/
theorem preludeCheck_some {d q : FsPath} {fs : Fs}
    (h : preludeCheck d fs = some q) :
    q = d ∧ pathExists (d ++ ["liblob_prelude.rlib"]) fs = true := by
  rw [preludeCheck] at h
  by_cases hx : pathExists (d ++ ["liblob_prelude.rlib"]) fs = true
  · rw [if_pos hx] at h
    exact ⟨(Option.some.inj h).symm, hx⟩
  · rw [if_neg hx] at h
    cases h

/-- A path's display string starts with a slash, so it never equals a
flag token. -/
theorem pathString_ne (s : FsPath) (t : String)
    (ht : t.data.head? ≠ some '/') : pathString s ≠ t := by
  intro h
  apply ht
  rw [← h]
  show ("/" ++ String.intercalate "/" s).data.head? = some '/'
  rw [String.data_append]
  rfl

/-- C6 counterexample: a candidate root is accepted as soon as the prelude
library exists — the core library is never checked.  With a manifest
directory whose workspace has `target/debug/liblob_prelude.rlib` but no
`liblob_core.rlib`, `find_target_dir` still accepts `target/debug`, and
`compile` then emits an `--extern lob_core=...` directive pointing at the
missing file. -/
theorem C6_counterexample :
    findTargetDir
        (BuildEnv.mk (some ["ws", "crates", "lob-cli"]) none none)
        (Fs.mk [["ws"], ["ws", "target"], ["ws", "target", "debug"]]
          [(["ws", "target", "debug", "liblob_prelude.rlib"], "rlib")]) =
      some ["ws", "target", "debug"] ∧
    pathExists ["ws", "target", "debug", "liblob_core.rlib"]
      (Fs.mk [["ws"], ["ws", "target"], ["ws", "target", "debug"]]
        [(["ws", "target", "debug", "liblob_prelude.rlib"], "rlib")]) = false ∧
    "lob_core=/ws/target/debug/liblob_core.rlib" ∈
      compileArgs (some ["ws", "target", "debug"]) none "out" "src" := by
  refine ⟨by decide, by decide, by decide⟩

/-- C6 (amended): artifact discovery accepts a candidate root as soon as
the *prelude* library artifact is present there — the core library is not
checked, its presence is not required — with the first satisfying root
winning; and when no candidate satisfies the test, compilation proceeds
with no link directives: the compiler command contains no `--extern` and
no `-L` argument. -/
theorem C6_artifact_discovery (env : BuildEnv) (fs : Fs) :
    (∀ d, findTargetDir env fs = some d →
      pathExists (d ++ ["liblob_prelude.rlib"]) fs = true) ∧
    (findTargetDir env fs = none → ∀ sysroot op sp,
      (op ≠ "--extern" → sp ≠ "--extern" →
        "--extern" ∉ compileArgs none sysroot op sp) ∧
      (op ≠ "-L" → sp ≠ "-L" → "-L" ∉ compileArgs none sysroot op sp)) := by
  constructor
  · intro d h
    obtain ⟨a, _, ha⟩ := List.exists_of_findSome?_eq_some h
    obtain ⟨rfl, hx⟩ := preludeCheck_some ha
    exact hx
  · intro _ sysroot op sp
    constructor
    · intro hop hsp hmem
      cases sysroot with
      | none =>
        simp [compileArgs] at hmem
        rcases hmem with h | h
        · exact hop h.symm
        · exact hsp h.symm
      | some s =>
        simp [compileArgs] at hmem
        rcases hmem with h | h | h
        · exact hop h.symm
        · exact hsp h.symm
        · exact pathString_ne s "--extern" (by decide) h.symm
    · intro hop hsp hmem
      cases sysroot with
      | none =>
        simp [compileArgs] at hmem
        rcases hmem with h | h
        · exact hop h.symm
        · exact hsp h.symm
      | some s =>
        simp [compileArgs] at hmem
        rcases hmem with h | h | h
        · exact hop h.symm
        · exact hsp h.symm
        · exact pathString_ne s "-L" (by decide) h.symm

/-- Witness for C6: the accepted root of the counterexample environment
does hold the prelude artifact, and with no resolved target directory the
command line contains neither `--extern` nor `-L`. -/
theorem C6_artifact_discovery_witness :
    pathExists (["ws", "target", "debug"] ++ ["liblob_prelude.rlib"])
      (Fs.mk [["ws"], ["ws", "target"], ["ws", "target", "debug"]]
        [(["ws", "target", "debug", "liblob_prelude.rlib"], "rlib")]) = true ∧
    "--extern" ∉ compileArgs none none "out" "src" ∧
    "-L" ∉ compileArgs none none "out" "src" :=
  ⟨(C6_artifact_discovery
      (BuildEnv.mk (some ["ws", "crates", "lob-cli"]) none none)
      (Fs.mk [["ws"], ["ws", "target"], ["ws", "target", "debug"]]
        [(["ws", "target", "debug", "liblob_prelude.rlib"], "rlib")])).1
      ["ws", "target", "debug"] (by decide),
   ((C6_artifact_discovery (BuildEnv.mk none none none) (Fs.mk [] [])).2 rfl
      none "out" "src").1 (by decide) (by decide),
   ((C6_artifact_discovery (BuildEnv.mk none none none) (Fs.mk [] [])).2 rfl
      none "out" "src").2 (by decide) (by decide)⟩

end Lob
